import Mathlib

/-!
Verification of the Shadow-Pad confidential token sale contracts
(`ConfidentialTokenFactory` / `ConfidentialERC7984Token`).

The Solidity contracts are shallowly embedded: machine integers become `Nat`
(`uint64` / `uint256` bounds are made explicit where overflow matters),
addresses become `Nat` with `0` playing the role of the null address,
reverting calls return `Except LedgerError _`, and the EVM's
revert-restores-state semantics is captured by `buyTx`, which pairs the
result with the post-call storage.  The library call
`Math.mulDiv(x, y, d, Rounding.Ceil)` (OpenZeppelin) computes the exact
512-bit ceiling quotient and reverts when the result does not fit in a
`uint256`; `mulDivCeil` models exactly that contract.
-/

/-- `TOKEN_BASE` of the contract: base units per whole token. -/
def TOKEN_BASE : Nat := 1000000

/-- Number of values of a `uint64`. -/
def UINT64_SIZE : Nat := 2 ^ 64

/-- Number of values of a `uint256`. -/
def UINT256_SIZE : Nat := 2 ^ 256

/-- The deployed sale contract's own address (`address(this)`).  Any nonzero
address works; a deployed contract is never the null address `0`. -/
def thisAddr : Nat := 1

/-- The revert reasons the contracts can produce: the five custom errors of
`ConfidentialERC7984Token`, the `Ownable` unauthorized error, and the
arithmetic panic raised by `Math.mulDiv` when its result exceeds `uint256`. -/
inductive LedgerError where
  | InvalidAmount
  | SoldOut
  | InsufficientPayment (requiredWei paidWei : Nat)
  | RefundFailed
  | InvalidWithdraw
  | OwnableUnauthorizedAccount (account : Nat)
  | ArithmeticOverflow
  deriving DecidableEq, Repr

/-- OpenZeppelin `Math.mulDiv(x, y, denominator, Rounding.Ceil)`: the exact
value `ceil(x * y / denominator)` computed with a full-width intermediate
product; reverts (`none`) when the denominator is zero or the result does not
fit in a `uint256`. -/
def mulDivCeil (x y denominator : Nat) : Option Nat :=
  if denominator = 0 then none
  else if x * y / denominator + (if x * y % denominator = 0 then 0 else 1) < UINT256_SIZE then
    some (x * y / denominator + (if x * y % denominator = 0 then 0 else 1))
  else none

/-- `ConfidentialERC7984Token.quoteBuy` (lines 98-102): `0` for a zero amount
or a zero price, otherwise `Math.mulDiv(amount, pricePerTokenWei, TOKEN_BASE,
Rounding.Ceil)`.  The function is a `view`, so it is embedded as a pure
function of the price it reads from storage. -/
def quoteBuy (pricePerTokenWei : Nat) (amount : Nat) : Option Nat :=
  if amount = 0 then some 0
  else if pricePerTokenWei = 0 then some 0
  else mulDivCeil amount pricePerTokenWei TOKEN_BASE

/-- Floor-plus-remainder-indicator form of the ceiling division used by
`mulDivCeil` agrees with the `(n + d - 1) / d` form. -/
theorem ceil_div_eq (n : Nat) :
    n / TOKEN_BASE + (if n % TOKEN_BASE = 0 then 0 else 1) =
      (n + (TOKEN_BASE - 1)) / TOKEN_BASE := by
  simp only [TOKEN_BASE]
  split <;> omega

/-- `quoteBuy` on a nonzero amount and nonzero price is the ceiling quotient
whenever that quotient fits in a `uint256`, and reverts otherwise. -/
theorem quoteBuy_eq_ceil (p a : Nat) (ha : a ≠ 0) (hp : p ≠ 0) :
    quoteBuy p a =
      (if (a * p + (TOKEN_BASE - 1)) / TOKEN_BASE < UINT256_SIZE then
        some ((a * p + (TOKEN_BASE - 1)) / TOKEN_BASE)
      else none) := by
  rw [quoteBuy, if_neg ha, if_neg hp, mulDivCeil, if_neg (by simp [TOKEN_BASE]), ceil_div_eq]

/-- Claim C1 (amended): `quoteBuy` returns `0` when the amount or the price is
zero; otherwise it returns exactly `ceil(amount * pricePerTokenWei /
TOKEN_BASE)` whenever that ceiling fits in a `uint256`, and reverts (rather
than returning a truncated value) when it does not; every value it does return
satisfies the two-sided ceiling bounds `r * TOKEN_BASE ≥ amount * price` and
`(r - 1) * TOKEN_BASE < amount * price`.  Being a `view` function, it is
side-effect-free by construction. -/
theorem quoteBuy_exact_ceil :
    (∀ p, quoteBuy p 0 = some 0) ∧
    (∀ a, quoteBuy 0 a = some 0) ∧
    (∀ p a, a ≠ 0 → p ≠ 0 → (a * p + (TOKEN_BASE - 1)) / TOKEN_BASE < UINT256_SIZE →
      quoteBuy p a = some ((a * p + (TOKEN_BASE - 1)) / TOKEN_BASE)) ∧
    (∀ p a, a ≠ 0 → p ≠ 0 → UINT256_SIZE ≤ (a * p + (TOKEN_BASE - 1)) / TOKEN_BASE →
      quoteBuy p a = none) ∧
    (∀ p a r, quoteBuy p a = some r →
      a * p ≤ r * TOKEN_BASE ∧ ((r : ℤ) - 1) * (TOKEN_BASE : ℤ) < (a : ℤ) * (p : ℤ)) := by
  refine ⟨fun p => by simp [quoteBuy], fun a => by simp [quoteBuy], ?_, ?_, ?_⟩
  · intro p a ha hp hfit
    rw [quoteBuy_eq_ceil p a ha hp, if_pos hfit]
  · intro p a ha hp hover
    rw [quoteBuy_eq_ceil p a ha hp, if_neg (Nat.not_lt.mpr hover)]
  · intro p a r hr
    by_cases ha : a = 0
    · subst ha
      have h0 : r = 0 := by simpa [quoteBuy] using hr.symm
      subst h0
      constructor
      · simp
      · have : (0 : ℤ) ≤ (p : ℤ) := Int.ofNat_nonneg p
        simp only [Nat.cast_zero, zero_mul, TOKEN_BASE]
        omega
    · by_cases hp : p = 0
      · subst hp
        have h0 : r = 0 := by simpa [quoteBuy, ha] using hr.symm
        subst h0
        constructor
        · simp
        · simp only [Nat.cast_zero, mul_zero, TOKEN_BASE]
          omega
      · rw [quoteBuy_eq_ceil p a ha hp] at hr
        split at hr
        · have hr' : r = (a * p + (TOKEN_BASE - 1)) / TOKEN_BASE := by
            exact (Option.some.injEq _ _).mp hr.symm
          have hup : a * p ≤ r * TOKEN_BASE := by
            subst hr'
            simp only [TOKEN_BASE]
            omega
          have hlo : r * TOKEN_BASE < a * p + TOKEN_BASE := by
            subst hr'
            simp only [TOKEN_BASE]
            omega
          refine ⟨hup, ?_⟩
          have hcast : ((r * TOKEN_BASE : Nat) : ℤ) < ((a * p + TOKEN_BASE : Nat) : ℤ) :=
            Int.ofNat_lt.mpr hlo
          push_cast at hcast
          linarith
        · exact absurd hr (by simp)

/-- Claim C1 (amended), witness: two base units at one wei per base unit are
quoted at the exact ceiling, two wei. -/
theorem quoteBuy_exact_ceil_witness :
    quoteBuy 1000000 2 = some ((2 * 1000000 + (TOKEN_BASE - 1)) / TOKEN_BASE) :=
  quoteBuy_exact_ceil.2.2.1 1000000 2 (by decide) (by decide) (by decide)

/-- Claim C1, counterexample to the claim as stated: with the price at the
`uint256` maximum (a reachable storage state, since `setPricePerTokenWei`
accepts any value) and the amount at the `uint64` maximum, the exact ceiling
exceeds `2 ^ 256 - 1`, so `Math.mulDiv` reverts and `quoteBuy` does not
return the ceiling value — yet both inputs are nonzero and in range. -/
theorem quoteBuy_overflow_counterexample :
    quoteBuy (UINT256_SIZE - 1) (UINT64_SIZE - 1) = none ∧
      (UINT64_SIZE - 1) ≠ 0 ∧ (UINT256_SIZE - 1) ≠ 0 := by
  refine ⟨by rfl, by decide, by decide⟩

/-- Claim C8: a nonzero amount at a nonzero price is never quoted as free —
whenever `quoteBuy` returns a value, that value is at least one wei. -/
theorem quoteBuy_positive (p a r : Nat) (ha : 1 ≤ a) (hp : 1 ≤ p)
    (hr : quoteBuy p a = some r) : 1 ≤ r := by
  rw [quoteBuy_eq_ceil p a (by omega) (by omega)] at hr
  split at hr
  · have hr' : r = (a * p + (TOKEN_BASE - 1)) / TOKEN_BASE :=
      (Option.some.injEq _ _).mp hr.symm
    have hn : 1 ≤ a * p := Nat.one_le_iff_ne_zero.mpr (Nat.mul_ne_zero (by omega) (by omega))
    subst hr'
    revert hn
    generalize a * p = n
    intro hn
    simp only [TOKEN_BASE]
    omega
  · exact absurd hr (by simp)

/-- Claim C8, witness: one base unit at a price of one wei per token is
quoted at one wei, not zero. -/
theorem quoteBuy_positive_witness : 1 ≤ 1 ∧ quoteBuy 1 1 = some 1 :=
  ⟨quoteBuy_positive 1 1 1 (by decide) (by decide) (by rfl), by rfl⟩

/-- Storage of one `ConfidentialERC7984Token` instance, together with the
contract's native ETH balance and the clear values behind the confidential
balance handles (the contract itself never reads these clear values; they are
tracked here to state conservation and frame properties). -/
structure LedgerState where
  owner : Nat
  totalSupplyClear : Nat
  remainingForSaleClear : Nat
  pricePerTokenWei : Nat
  ethBalance : Nat
  balances : Nat → Nat

/-- The `ConfidentialERC7984Token` constructor (lines 81-96): rejects a zero
supply with `InvalidAmount`, otherwise sets both supply counters to the
requested supply, stores the price, and mints the entire supply to the
contract's own confidential balance. -/
def mkToken (owner totalSupply pricePerTokenWei : Nat) : Except LedgerError LedgerState :=
  if totalSupply = 0 then .error .InvalidAmount
  else .ok
    { owner := owner
      totalSupplyClear := totalSupply
      remainingForSaleClear := totalSupply
      pricePerTokenWei := pricePerTokenWei
      ethBalance := 0
      balances := fun a => if a = thisAddr then totalSupply else 0 }

/-- Clear value moved by the ERC7984 confidential transfer: the requested
amount when the source balance suffices, otherwise zero (the library's
FHE select; it never reverts on insufficient balance). -/
def transferredClear (bal : Nat → Nat) (src amount : Nat) : Nat :=
  if amount ≤ bal src then amount else 0

/-- The ERC7984 `_transfer` over clear shadows of the encrypted balances:
debits the source and credits the destination by `transferredClear`, and
returns the updated balance table together with the transferred amount. -/
def confTransfer (bal : Nat → Nat) (src dst amount : Nat) : (Nat → Nat) × Nat :=
  (fun a =>
    (if a = src then bal a - transferredClear bal src amount else bal a) +
      (if a = dst then transferredClear bal src amount else 0),
   transferredClear bal src amount)

/-- Result of a successful `buy`: the updated storage, the clear value behind
the returned `transferred` handle, the refund actually paid out, and the
`requiredWei` figure used for the purchase event. -/
structure BuyOk where
  state : LedgerState
  transferred : Nat
  refundPaid : Nat
  requiredWei : Nat

/-- `ConfidentialERC7984Token.buy` (lines 104-121), embedded path by path:
zero amount reverts `InvalidAmount`; an amount above `remainingForSaleClear`
reverts `SoldOut`; then `quoteBuy` runs (propagating the `Math.mulDiv`
overflow panic); a `msg.value` below the quote reverts `InsufficientPayment`
with both figures; otherwise the supply counter is decremented, the
confidential transfer runs, and any positive overpayment is refunded by a
native call whose failure (`refundOk = false`) reverts `RefundFailed`.
`msgValue` joins the contract balance on entry; the refund leaves again, so a
successful purchase retains exactly `requiredWei`. -/
def buy (s : LedgerState) (sender amount msgValue : Nat) (refundOk : Bool) :
    Except LedgerError BuyOk :=
  if amount = 0 then .error .InvalidAmount
  else if s.remainingForSaleClear < amount then .error .SoldOut
  else
    match quoteBuy s.pricePerTokenWei amount with
    | none => .error .ArithmeticOverflow
    | some requiredWei =>
      if msgValue < requiredWei then .error (.InsufficientPayment requiredWei msgValue)
      else if 0 < msgValue - requiredWei then
        if refundOk then
          .ok { state :=
                  { s with
                    remainingForSaleClear := s.remainingForSaleClear - amount
                    ethBalance := s.ethBalance + msgValue - (msgValue - requiredWei)
                    balances := (confTransfer s.balances thisAddr sender amount).1 }
                transferred := (confTransfer s.balances thisAddr sender amount).2
                refundPaid := msgValue - requiredWei
                requiredWei := requiredWei }
        else .error .RefundFailed
      else
        .ok { state :=
                { s with
                  remainingForSaleClear := s.remainingForSaleClear - amount
                  ethBalance := s.ethBalance + msgValue
                  balances := (confTransfer s.balances thisAddr sender amount).1 }
              transferred := (confTransfer s.balances thisAddr sender amount).2
              refundPaid := 0
              requiredWei := requiredWei }

/-- A `buy` transaction as the EVM applies it: on success the new storage is
committed; on any revert the EVM restores the pre-call storage (and returns
the attached value), so the caller observes the original state together with
the typed revert reason. -/
def buyTx (s : LedgerState) (sender amount msgValue : Nat) (refundOk : Bool) :
    LedgerState × Except LedgerError BuyOk :=
  match buy s sender amount msgValue refundOk with
  | .ok out => (out.state, .ok out)
  | .error e => (s, .error e)

/-- The `PriceUpdated` event payload. -/
structure PriceUpdatedEvent where
  oldPricePerTokenWei : Nat
  newPricePerTokenWei : Nat

/-- `ConfidentialERC7984Token.setPricePerTokenWei` (lines 123-126): owner-only
(`Ownable` reverts for anyone else), emits `PriceUpdated` with the price read
before the write, then stores the new price unconditionally. -/
def setPricePerTokenWei (s : LedgerState) (caller newPricePerTokenWei : Nat) :
    Except LedgerError (LedgerState × PriceUpdatedEvent) :=
  if caller = s.owner then
    .ok ({ s with pricePerTokenWei := newPricePerTokenWei },
         { oldPricePerTokenWei := s.pricePerTokenWei
           newPricePerTokenWei := newPricePerTokenWei })
  else .error (.OwnableUnauthorizedAccount caller)

/-- `ConfidentialERC7984Token.withdraw` (lines 128-136): owner-only; a null
recipient or zero amount reverts `InvalidWithdraw`; an amount above the
contract balance reverts `InvalidWithdraw`; a failing native transfer
(`transferOk = false`, line 133) also reverts `InvalidWithdraw`; otherwise the
amount leaves the contract balance. -/
def withdraw (s : LedgerState) (caller toAddr amountWei : Nat) (transferOk : Bool) :
    Except LedgerError LedgerState :=
  if caller = s.owner then
    if toAddr = 0 ∨ amountWei = 0 then .error .InvalidWithdraw
    else if s.ethBalance < amountWei then .error .InvalidWithdraw
    else if transferOk then .ok { s with ethBalance := s.ethBalance - amountWei }
    else .error .InvalidWithdraw
  else .error (.OwnableUnauthorizedAccount caller)

/-- A concrete ledger used by the witnesses: owner `7`, supply `10`, price
`TOKEN_BASE` (one wei per base unit), no collected ETH yet. -/
def sampleLedger : LedgerState :=
  { owner := 7
    totalSupplyClear := 10
    remainingForSaleClear := 10
    pricePerTokenWei := 1000000
    ethBalance := 0
    balances := fun a => if a = thisAddr then 10 else 0 }

/-- A sample ledger that has collected some ETH, for the withdraw witnesses. -/
def fundedLedger : LedgerState :=
  { sampleLedger with ethBalance := 5 }

/-- A sample ledger with the price set to zero, for the free-purchase claim. -/
def freeLedger : LedgerState :=
  { sampleLedger with pricePerTokenWei := 0 }

/-- Whether a `buy` call succeeded. -/
def buySucceeds (r : Except LedgerError BuyOk) : Bool :=
  match r with
  | .ok _ => true
  | .error _ => false

/-- The refund paid out by a successful `buy`. -/
def buyRefundPaid (r : Except LedgerError BuyOk) : Option Nat :=
  match r with
  | .ok out => some out.refundPaid
  | .error _ => none

/-- The `requiredWei` figure of a successful `buy`. -/
def buyRequiredWei (r : Except LedgerError BuyOk) : Option Nat :=
  match r with
  | .ok out => some out.requiredWei
  | .error _ => none

/-- The clear value behind the `transferred` handle of a successful `buy`. -/
def buyTransferred (r : Except LedgerError BuyOk) : Option Nat :=
  match r with
  | .ok out => some out.transferred
  | .error _ => none

/-- Any reverting `buy` leaves the post-transaction storage identical to the
pre-call storage: the EVM discards every tentative write of the reverted
frame. -/
theorem buyTx_error_frame (s : LedgerState) (sender amount v : Nat) (rOk : Bool)
    (e : LedgerError) (h : (buyTx s sender amount v rOk).2 = .error e) :
    (buyTx s sender amount v rOk).1 = s := by
  unfold buyTx at h ⊢
  cases hb : buy s sender amount v rOk with
  | ok out => rw [hb] at h; simp at h
  | error e' => rfl

/-- Claim C2: a `buy` whose refund value-transfer fails — after the supply
decrement and the confidential transfer have already executed in the frame —
reverts with `RefundFailed`, and every reverting `buy` (this path included)
leaves the entire ledger storage, confidential balances and contract ETH
balance included, exactly as before the call. -/
theorem buy_error_atomicity :
    (∀ s sender amount v req, amount ≠ 0 → amount ≤ s.remainingForSaleClear →
      quoteBuy s.pricePerTokenWei amount = some req → req < v →
      buyTx s sender amount v false = (s, .error .RefundFailed)) ∧
    (∀ s sender amount v rOk e, (buyTx s sender amount v rOk).2 = .error e →
      (buyTx s sender amount v rOk).1 = s) := by
  constructor
  · intro s sender amount v req ha hle hq hlt
    have hbuy : buy s sender amount v false = .error .RefundFailed := by
      simp [buy, ha, Nat.not_lt.mpr hle, hq, Nat.not_lt.mpr (Nat.le_of_lt hlt),
        Nat.sub_pos_of_lt hlt]
    simp [buyTx, hbuy]
  · exact buyTx_error_frame

/-- Claim C2, witness: on `sampleLedger` a purchase of `2` base units with
`3` wei attached and a refund transfer that fails reverts with
`RefundFailed` and returns the untouched pre-call state. -/
theorem buy_error_atomicity_witness :
    buyTx sampleLedger 5 2 3 false = (sampleLedger, .error .RefundFailed) :=
  buy_error_atomicity.1 sampleLedger 5 2 3 2 (by decide) (by decide) (by rfl) (by decide)

/-- Claim C3: whenever `0 < amount ≤ remainingForSaleClear`, the quote is
defined, at least the quote is attached, and the refund transfer goes
through, `buy` succeeds, decrements `remainingForSaleClear` by exactly the
amount, pays back exactly the overpayment, and retains exactly the quoted
wei in the contract, so the buyer's net cost is the quote. -/
theorem buy_success_effects (s : LedgerState) (sender amount v req : Nat)
    (ha : amount ≠ 0) (hle : amount ≤ s.remainingForSaleClear)
    (hq : quoteBuy s.pricePerTokenWei amount = some req) (hv : req ≤ v) :
    buySucceeds (buy s sender amount v true) = true ∧
    (buyTx s sender amount v true).1.remainingForSaleClear =
      s.remainingForSaleClear - amount ∧
    buyRefundPaid (buy s sender amount v true) = some (v - req) ∧
    (buyTx s sender amount v true).1.ethBalance = s.ethBalance + req ∧
    buyRequiredWei (buy s sender amount v true) = some req := by
  have hnlt : ¬ s.remainingForSaleClear < amount := Nat.not_lt.mpr hle
  have hnv : ¬ v < req := Nat.not_lt.mpr hv
  by_cases hrf : 0 < v - req
  · have hb : buy s sender amount v true =
        .ok { state :=
                { s with
                  remainingForSaleClear := s.remainingForSaleClear - amount
                  ethBalance := s.ethBalance + v - (v - req)
                  balances := (confTransfer s.balances thisAddr sender amount).1 }
              transferred := (confTransfer s.balances thisAddr sender amount).2
              refundPaid := v - req
              requiredWei := req } := by
      simp [buy, ha, hnlt, hq, hnv, hrf]
    refine ⟨by rw [hb]; rfl, ?_, by rw [hb]; rfl, ?_, by rw [hb]; rfl⟩
    · simp only [buyTx, hb]
    · simp only [buyTx, hb]
      show s.ethBalance + v - (v - req) = s.ethBalance + req
      omega
  · have hb : buy s sender amount v true =
        .ok { state :=
                { s with
                  remainingForSaleClear := s.remainingForSaleClear - amount
                  ethBalance := s.ethBalance + v
                  balances := (confTransfer s.balances thisAddr sender amount).1 }
              transferred := (confTransfer s.balances thisAddr sender amount).2
              refundPaid := 0
              requiredWei := req } := by
      simp [buy, ha, hnlt, hq, hnv, hrf]
    refine ⟨by rw [hb]; rfl, ?_, ?_, ?_, by rw [hb]; rfl⟩
    · simp only [buyTx, hb]
    · rw [hb]
      have hveq : v = req := by omega
      subst hveq
      show some (0 : Nat) = some (v - v)
      rw [Nat.sub_self]
    · simp only [buyTx, hb]
      show s.ethBalance + v = s.ethBalance + req
      omega

/-- Claim C3, witness: buying `2` base units of `sampleLedger` (quote `2`
wei) with `3` wei attached succeeds, leaves `8` for sale, refunds `1` wei and
keeps `2` wei. -/
theorem buy_success_effects_witness :
    buySucceeds (buy sampleLedger 5 2 3 true) = true ∧
    (buyTx sampleLedger 5 2 3 true).1.remainingForSaleClear =
      sampleLedger.remainingForSaleClear - 2 ∧
    buyRefundPaid (buy sampleLedger 5 2 3 true) = some (3 - 2) ∧
    (buyTx sampleLedger 5 2 3 true).1.ethBalance = sampleLedger.ethBalance + 2 ∧
    buyRequiredWei (buy sampleLedger 5 2 3 true) = some 2 :=
  buy_success_effects sampleLedger 5 2 3 2 (by decide) (by decide) (by rfl) (by decide)

/-- Claim C4: the three `buy` preconditions are checked in the fixed source
order, each with its own typed revert: a zero amount reverts `InvalidAmount`
first; then an amount above `remainingForSaleClear` reverts `SoldOut` — for
any attached value, before any payment comparison; only then is the quote
compared with `msg.value`, a shortfall reverting `InsufficientPayment`
carrying both the required and the supplied wei. -/
theorem buy_precondition_order :
    (∀ s sender v rOk, buy s sender 0 v rOk = .error .InvalidAmount) ∧
    (∀ s sender amount v rOk, amount ≠ 0 → s.remainingForSaleClear < amount →
      buy s sender amount v rOk = .error .SoldOut) ∧
    (∀ s sender amount v rOk req, amount ≠ 0 → amount ≤ s.remainingForSaleClear →
      quoteBuy s.pricePerTokenWei amount = some req → v < req →
      buy s sender amount v rOk = .error (.InsufficientPayment req v)) := by
  refine ⟨?_, ?_, ?_⟩
  · intro s sender v rOk
    simp [buy]
  · intro s sender amount v rOk ha hlt
    simp [buy, ha, hlt]
  · intro s sender amount v rOk req ha hle hq hv
    simp [buy, ha, Nat.not_lt.mpr hle, hq, hv]

/-- Claim C4, witness: on `sampleLedger` a purchase of one base unit with no
value attached reverts `InsufficientPayment` carrying required `1` and paid
`0`. -/
theorem buy_precondition_order_witness :
    buy sampleLedger 5 1 0 true = .error (.InsufficientPayment 1 0) :=
  buy_precondition_order.2.2 sampleLedger 5 1 0 true 1 (by decide) (by decide)
    (by rfl) (by decide)

/-- Claim C6, counterexample to the claim as stated: on a funded ledger the
owner's withdrawal to a valid recipient of an amount within the balance,
whose native transfer fails, reverts `InvalidWithdraw` — exactly the same
reason produced for a null recipient — so a failed withdrawal transfer is
not distinguishable at the call boundary from an invalid withdrawal
request, and no distinct transfer-failure reason exists for `withdraw`. -/
theorem withdraw_conflated_counterexample :
    withdraw fundedLedger 7 3 5 false = .error .InvalidWithdraw ∧
    withdraw fundedLedger 7 0 5 true = .error .InvalidWithdraw ∧
    (3 : Nat) ≠ 0 ∧ (5 : Nat) ≠ 0 ∧ fundedLedger.ethBalance = 5 := by
  exact ⟨by rfl, by rfl, by decide, by decide, by rfl⟩

/-- Claim C6 (amended): when a withdrawal's native transfer to the recipient
fails, `withdraw` reverts with the same `InvalidWithdraw` reason it uses for
a null recipient, a zero amount, or an amount exceeding the balance; only
`buy`'s refund failure has a distinct reason (`RefundFailed`).  The rest of
the taxonomy remains pairwise distinguishable. -/
theorem withdraw_transfer_failure_reason (s : LedgerState) (toAddr amountWei : Nat)
    (hto : toAddr ≠ 0) (hamt : amountWei ≠ 0) (hbal : amountWei ≤ s.ethBalance) :
    withdraw s s.owner toAddr amountWei false = .error .InvalidWithdraw ∧
    withdraw s s.owner 0 amountWei true = .error .InvalidWithdraw ∧
    (LedgerError.RefundFailed ≠ LedgerError.InvalidWithdraw) := by
  refine ⟨?_, ?_, by decide⟩
  · simp [withdraw, hto, hamt, Nat.not_lt.mpr hbal]
  · simp [withdraw]

/-- Claim C6 (amended), witness: the two conflated reverts observed on the
concrete funded ledger. -/
theorem withdraw_transfer_failure_reason_witness :
    withdraw fundedLedger fundedLedger.owner 3 5 false = .error .InvalidWithdraw ∧
    withdraw fundedLedger fundedLedger.owner 0 5 true = .error .InvalidWithdraw ∧
    (LedgerError.RefundFailed ≠ LedgerError.InvalidWithdraw) :=
  withdraw_transfer_failure_reason fundedLedger 3 5 (by decide) (by decide) (by decide)

/-- Claim C9: with the price at zero, any purchase of `0 < amount ≤
remainingForSaleClear` succeeds whatever value is attached (zero included):
the required payment is `0`, the full amount of tokens is transferred (the
contract holds at least the remaining supply), the supply counter drops by
the amount, the contract keeps none of the payment, and the entire attached
value is refunded. -/
theorem buy_free_when_price_zero (s : LedgerState) (sender amount v : Nat)
    (hp : s.pricePerTokenWei = 0) (ha : amount ≠ 0)
    (hle : amount ≤ s.remainingForSaleClear)
    (hbal : amount ≤ s.balances thisAddr) :
    buySucceeds (buy s sender amount v true) = true ∧
    buyRequiredWei (buy s sender amount v true) = some 0 ∧
    (buyTx s sender amount v true).1.remainingForSaleClear =
      s.remainingForSaleClear - amount ∧
    (buyTx s sender amount v true).1.ethBalance = s.ethBalance ∧
    buyRefundPaid (buy s sender amount v true) = some v ∧
    buyTransferred (buy s sender amount v true) = some amount := by
  have hq : quoteBuy s.pricePerTokenWei amount = some 0 := by
    rw [hp, quoteBuy, if_neg ha, if_pos rfl]
  have hnlt : ¬ s.remainingForSaleClear < amount := Nat.not_lt.mpr hle
  have htr : (confTransfer s.balances thisAddr sender amount).2 = amount := by
    simp [confTransfer, transferredClear, hbal]
  by_cases hv : 0 < v
  · have hb : buy s sender amount v true =
        .ok { state :=
                { s with
                  remainingForSaleClear := s.remainingForSaleClear - amount
                  ethBalance := s.ethBalance + v - (v - 0)
                  balances := (confTransfer s.balances thisAddr sender amount).1 }
              transferred := (confTransfer s.balances thisAddr sender amount).2
              refundPaid := v - 0
              requiredWei := 0 } := by
      simp [buy, ha, hnlt, hq, hv]
    refine ⟨by rw [hb]; rfl, by rw [hb]; rfl, ?_, ?_, ?_, ?_⟩
    · simp only [buyTx, hb]
    · simp only [buyTx, hb]
      show s.ethBalance + v - (v - 0) = s.ethBalance
      omega
    · rw [hb]
      show some (v - 0) = some v
      rw [Nat.sub_zero]
    · rw [hb]
      show some (confTransfer s.balances thisAddr sender amount).2 = some amount
      rw [htr]
  · have hv0 : v = 0 := by omega
    subst hv0
    have hb : buy s sender amount 0 true =
        .ok { state :=
                { s with
                  remainingForSaleClear := s.remainingForSaleClear - amount
                  ethBalance := s.ethBalance + 0
                  balances := (confTransfer s.balances thisAddr sender amount).1 }
              transferred := (confTransfer s.balances thisAddr sender amount).2
              refundPaid := 0
              requiredWei := 0 } := by
      simp [buy, ha, hnlt, hq]
    refine ⟨by rw [hb]; rfl, by rw [hb]; rfl, ?_, ?_, by rw [hb]; rfl, ?_⟩
    · simp only [buyTx, hb]
    · simp only [buyTx, hb]
      show s.ethBalance + 0 = s.ethBalance
      omega
    · rw [hb]
      show some (confTransfer s.balances thisAddr sender amount).2 = some amount
      rw [htr]

/-- Claim C9, witness: on the zero-price ledger, buying `2` base units with
`3` wei attached succeeds, requires `0`, refunds all `3` wei, and transfers
the full `2` units. -/
theorem buy_free_when_price_zero_witness :
    buySucceeds (buy freeLedger 5 2 3 true) = true ∧
    buyRequiredWei (buy freeLedger 5 2 3 true) = some 0 ∧
    (buyTx freeLedger 5 2 3 true).1.remainingForSaleClear =
      freeLedger.remainingForSaleClear - 2 ∧
    (buyTx freeLedger 5 2 3 true).1.ethBalance = freeLedger.ethBalance ∧
    buyRefundPaid (buy freeLedger 5 2 3 true) = some 3 ∧
    buyTransferred (buy freeLedger 5 2 3 true) = some 2 :=
  buy_free_when_price_zero freeLedger 5 2 3 (by rfl) (by decide) (by decide) (by decide)

/-- Claim C10: an owner call of `setPricePerTokenWei` accepts every new
price (zero and the unchanged price included) and produces exactly the old
state with only `pricePerTokenWei` replaced — supply counters, ETH balance,
confidential balances and owner untouched — together with a `PriceUpdated`
event whose old value is the pre-call price. -/
theorem setPrice_frame (s : LedgerState) (caller newPrice : Nat)
    (h : caller = s.owner) :
    setPricePerTokenWei s caller newPrice =
      .ok ({ s with pricePerTokenWei := newPrice },
           { oldPricePerTokenWei := s.pricePerTokenWei
             newPricePerTokenWei := newPrice }) ∧
    ({ s with pricePerTokenWei := newPrice } : LedgerState).totalSupplyClear
        = s.totalSupplyClear ∧
    ({ s with pricePerTokenWei := newPrice } : LedgerState).remainingForSaleClear
        = s.remainingForSaleClear ∧
    ({ s with pricePerTokenWei := newPrice } : LedgerState).ethBalance = s.ethBalance ∧
    ({ s with pricePerTokenWei := newPrice } : LedgerState).balances = s.balances ∧
    ({ s with pricePerTokenWei := newPrice } : LedgerState).owner = s.owner := by
  refine ⟨?_, rfl, rfl, rfl, rfl, rfl⟩
  rw [setPricePerTokenWei, if_pos h]

/-- Claim C10, witness: the owner setting the price of `sampleLedger` to `0`
succeeds, the event carries the old price `1000000`, and every other field
survives unchanged. -/
theorem setPrice_frame_witness :
    setPricePerTokenWei sampleLedger 7 0 =
      .ok ({ sampleLedger with pricePerTokenWei := 0 },
           { oldPricePerTokenWei := 1000000, newPricePerTokenWei := 0 }) ∧
    ({ sampleLedger with pricePerTokenWei := 0 } : LedgerState).totalSupplyClear
        = sampleLedger.totalSupplyClear ∧
    ({ sampleLedger with pricePerTokenWei := 0 } : LedgerState).remainingForSaleClear
        = sampleLedger.remainingForSaleClear ∧
    ({ sampleLedger with pricePerTokenWei := 0 } : LedgerState).ethBalance
        = sampleLedger.ethBalance ∧
    ({ sampleLedger with pricePerTokenWei := 0 } : LedgerState).balances
        = sampleLedger.balances ∧
    ({ sampleLedger with pricePerTokenWei := 0 } : LedgerState).owner
        = sampleLedger.owner :=
  setPrice_frame sampleLedger 7 0 (by rfl)

/-- Inversion of a successful construction: the supply was nonzero and both
counters start at the full supply. -/
theorem mkToken_ok_inv {owner supply price : Nat} {s : LedgerState}
    (h : mkToken owner supply price = .ok s) :
    supply ≠ 0 ∧ s.totalSupplyClear = supply ∧ s.remainingForSaleClear = supply := by
  by_cases h0 : supply = 0
  · simp [mkToken, h0] at h
  · simp only [mkToken, if_neg h0, Except.ok.injEq] at h
    subst h
    exact ⟨h0, rfl, rfl⟩

/-- Inversion of a successful `buy`: the checked preconditions held, the
supply counter dropped by exactly the purchased amount, and the immutable
total supply is untouched. -/
theorem buy_ok_inv {s : LedgerState} {sender amount v : Nat} {rOk : Bool} {out : BuyOk}
    (h : buy s sender amount v rOk = .ok out) :
    amount ≠ 0 ∧ amount ≤ s.remainingForSaleClear ∧
    out.state.totalSupplyClear = s.totalSupplyClear ∧
    out.state.remainingForSaleClear = s.remainingForSaleClear - amount := by
  by_cases ha : amount = 0
  · simp [buy, ha] at h
  · by_cases hlt : s.remainingForSaleClear < amount
    · simp [buy, ha, hlt] at h
    · cases hq : quoteBuy s.pricePerTokenWei amount with
      | none => simp [buy, ha, hlt, hq] at h
      | some req =>
        by_cases hv : v < req
        · simp [buy, ha, hlt, hq, hv] at h
        · by_cases hrf : 0 < v - req
          · cases rOk with
            | false => simp [buy, ha, hlt, hq, hv, hrf] at h
            | true =>
              simp only [buy, if_neg ha, if_neg hlt, hq, if_neg hv, if_pos hrf, if_pos rfl,
                if_true, eq_self_iff_true, Except.ok.injEq] at h
              subst h
              exact ⟨ha, Nat.not_lt.mp hlt, rfl, rfl⟩
          · simp only [buy, if_neg ha, if_neg hlt, hq, if_neg hv, if_neg hrf,
              Except.ok.injEq] at h
            subst h
            exact ⟨ha, Nat.not_lt.mp hlt, rfl, rfl⟩

/-- Inversion of a successful price update: both supply counters survive. -/
theorem setPrice_ok_inv {s : LedgerState} {caller p : Nat}
    {out : LedgerState × PriceUpdatedEvent}
    (h : setPricePerTokenWei s caller p = .ok out) :
    out.1.totalSupplyClear = s.totalSupplyClear ∧
    out.1.remainingForSaleClear = s.remainingForSaleClear := by
  by_cases hc : caller = s.owner
  · simp only [setPricePerTokenWei, if_pos hc, Except.ok.injEq] at h
    subst h
    exact ⟨rfl, rfl⟩
  · simp [setPricePerTokenWei, hc] at h

/-- Inversion of a successful withdrawal: both supply counters survive. -/
theorem withdraw_ok_inv {s : LedgerState} {caller toAddr amt : Nat} {tOk : Bool}
    {s' : LedgerState} (h : withdraw s caller toAddr amt tOk = .ok s') :
    s'.totalSupplyClear = s.totalSupplyClear ∧
    s'.remainingForSaleClear = s.remainingForSaleClear := by
  by_cases hc : caller = s.owner
  · by_cases hz : toAddr = 0 ∨ amt = 0
    · simp [withdraw, hc, hz] at h
    · by_cases hb : s.ethBalance < amt
      · simp [withdraw, hc, hz, hb] at h
      · cases tOk with
        | false => simp [withdraw, hc, hz, hb] at h
        | true =>
          simp only [withdraw, if_pos hc, if_neg hz, if_neg hb, if_pos rfl,
            if_true, eq_self_iff_true, Except.ok.injEq] at h
          subst h
          exact ⟨rfl, rfl⟩
  · simp [withdraw, hc] at h

/-- The storage states of one sale-ledger instance the chain can actually
reach: a successful construction (with a `uint64` supply), followed by any
sequence of successful `buy`, `setPricePerTokenWei` and `withdraw` calls.
Reverted calls do not produce new states (see `buyTx_error_frame`). -/
inductive LedgerReachable : LedgerState → Prop where
  | created : ∀ owner supply price s, supply < UINT64_SIZE →
      mkToken owner supply price = .ok s → LedgerReachable s
  | bought : ∀ s sender amount v rOk out, LedgerReachable s →
      buy s sender amount v rOk = .ok out → LedgerReachable out.state
  | repriced : ∀ s caller p out, LedgerReachable s →
      setPricePerTokenWei s caller p = .ok out → LedgerReachable out.1
  | withdrew : ∀ s caller toAddr amt tOk s', LedgerReachable s →
      withdraw s caller toAddr amt tOk = .ok s' → LedgerReachable s'

/-- Claim C5: in every reachable ledger state `remainingForSaleClear ≤
totalSupplyClear` (both are `Nat`, so `0 ≤` holds inherently); construction
rejects a zero supply and otherwise starts the counter at the full supply;
each successful `buy` strictly decreases the counter by exactly the checked
(hence never-underflowing) purchased amount; successful `setPricePerTokenWei`
and `withdraw` calls leave it unchanged, and so does every reverting `buy`
transaction.  `quoteBuy` is a pure function of the price and amount and
cannot touch the counter at all. -/
theorem ledger_supply_invariants :
    (∀ s, LedgerReachable s → s.remainingForSaleClear ≤ s.totalSupplyClear) ∧
    (∀ owner price, mkToken owner 0 price = .error .InvalidAmount) ∧
    (∀ owner supply price s, mkToken owner supply price = .ok s →
      s.remainingForSaleClear = s.totalSupplyClear) ∧
    (∀ s sender amount v rOk out, buy s sender amount v rOk = .ok out →
      1 ≤ amount ∧ amount ≤ s.remainingForSaleClear ∧
      out.state.remainingForSaleClear = s.remainingForSaleClear - amount ∧
      out.state.remainingForSaleClear < s.remainingForSaleClear) ∧
    (∀ s caller p out, setPricePerTokenWei s caller p = .ok out →
      out.1.remainingForSaleClear = s.remainingForSaleClear) ∧
    (∀ s caller toAddr amt tOk s', withdraw s caller toAddr amt tOk = .ok s' →
      s'.remainingForSaleClear = s.remainingForSaleClear) ∧
    (∀ s sender amount v rOk e, (buyTx s sender amount v rOk).2 = .error e →
      (buyTx s sender amount v rOk).1.remainingForSaleClear =
        s.remainingForSaleClear) := by
  refine ⟨?_, ?_, ?_, ?_, ?_, ?_, ?_⟩
  · intro s h
    induction h with
    | created owner supply price s hlt hok =>
      obtain ⟨-, ht, hr⟩ := mkToken_ok_inv hok
      rw [ht, hr]
    | bought s sender amount v rOk out hreach hok ih =>
      obtain ⟨-, hle, ht, hr⟩ := buy_ok_inv hok
      rw [ht, hr]
      omega
    | repriced s caller p out hreach hok ih =>
      obtain ⟨ht, hr⟩ := setPrice_ok_inv hok
      rw [ht, hr]
      exact ih
    | withdrew s caller toAddr amt tOk s' hreach hok ih =>
      obtain ⟨ht, hr⟩ := withdraw_ok_inv hok
      rw [ht, hr]
      exact ih
  · intro owner price
    rfl
  · intro owner supply price s hok
    obtain ⟨-, ht, hr⟩ := mkToken_ok_inv hok
    rw [ht, hr]
  · intro s sender amount v rOk out hok
    obtain ⟨ha, hle, -, hr⟩ := buy_ok_inv hok
    exact ⟨Nat.one_le_iff_ne_zero.mpr ha, hle, hr, by omega⟩
  · intro s caller p out hok
    exact (setPrice_ok_inv hok).2
  · intro s caller toAddr amt tOk s' hok
    exact (withdraw_ok_inv hok).2
  · intro s sender amount v rOk e h
    rw [buyTx_error_frame s sender amount v rOk e h]

/-- Claim C5, witness: `sampleLedger` is the state constructed with supply
`10`, and its sale counter starts equal to its total supply. -/
theorem ledger_supply_invariants_witness :
    sampleLedger.remainingForSaleClear = sampleLedger.totalSupplyClear :=
  ledger_supply_invariants.2.2.1 7 10 1000000 sampleLedger (by rfl)

/-- The `TokenCreated` event payload of the factory. -/
structure TokenCreatedEvent where
  creator : Nat
  token : Nat
  name : String
  symbol : String
  totalSupplyClear : Nat
  pricePerTokenWei : Nat

/-- Storage of `ConfidentialTokenFactory`: the global list `_allTokens` and
the per-creator lists `_tokensByCreator`. -/
structure FactoryState where
  allTokens : List Nat
  tokensByCreator : Nat → List Nat

/-- `ConfidentialTokenFactory.createToken` (lines 31-51): deploys a new
`ConfidentialERC7984Token` (whose constructor failure for a zero supply
propagates and reverts the whole call), then pushes the fresh address onto
`_allTokens` and onto the caller's `_tokensByCreator` list and emits
`TokenCreated`.  The EVM chooses the fresh address `newAddr`; the embedding
takes it as a parameter. -/
def createToken (f : FactoryState) (creator : Nat) (name symbol : String)
    (totalSupplyClear pricePerTokenWei newAddr : Nat) :
    Except LedgerError (FactoryState × Nat × TokenCreatedEvent) :=
  match mkToken creator totalSupplyClear pricePerTokenWei with
  | .error e => .error e
  | .ok _ =>
    .ok ({ allTokens := f.allTokens ++ [newAddr]
           tokensByCreator := fun c =>
             if c = creator then f.tokensByCreator c ++ [newAddr]
             else f.tokensByCreator c },
         newAddr,
         { creator := creator, token := newAddr, name := name, symbol := symbol
           totalSupplyClear := totalSupplyClear, pricePerTokenWei := pricePerTokenWei })

/-- The factory states the chain can reach: the empty deployment state,
extended by successful `createToken` calls.  The EVM's `CREATE` always
yields an address distinct from every already-deployed contract, so the
fresh address is outside the current global list. -/
inductive FactoryReachable : FactoryState → Prop where
  | deployed : FactoryReachable { allTokens := [], tokensByCreator := fun _ => [] }
  | created : ∀ f creator name symbol supply price addr out,
      FactoryReachable f →
      addr ∉ f.allTokens →
      createToken f creator name symbol supply price addr = .ok out →
      FactoryReachable out.1

/-- Inversion of a successful `createToken`: the returned address is the
fresh one and both lists are extended by exactly one append. -/
theorem createToken_ok_inv {f : FactoryState} {creator : Nat} {name symbol : String}
    {supply price addr : Nat} {out : FactoryState × Nat × TokenCreatedEvent}
    (h : createToken f creator name symbol supply price addr = .ok out) :
    out.1.allTokens = f.allTokens ++ [addr] ∧
    out.1.tokensByCreator = (fun c =>
      if c = creator then f.tokensByCreator c ++ [addr] else f.tokensByCreator c) ∧
    out.2.1 = addr := by
  by_cases h0 : supply = 0
  · simp [createToken, mkToken, h0] at h
  · simp only [createToken, mkToken, if_neg h0, Except.ok.injEq] at h
    subst h
    exact ⟨rfl, rfl, rfl⟩

/-- Every reachable factory state has a duplicate-free global list that
contains every address of every per-creator list. -/
theorem factory_inv (f : FactoryState) (h : FactoryReachable f) :
    f.allTokens.Nodup ∧ ∀ c a, a ∈ f.tokensByCreator c → a ∈ f.allTokens := by
  induction h with
  | deployed =>
    exact ⟨List.nodup_nil, fun c a ha => absurd ha (List.not_mem_nil a)⟩
  | created f creator name symbol supply price addr out hreach hfresh hok ih =>
    obtain ⟨hall, hby, -⟩ := createToken_ok_inv hok
    constructor
    · rw [hall, List.nodup_append]
      refine ⟨ih.1, List.nodup_singleton addr, ?_⟩
      intro a hal has
      rw [List.mem_singleton] at has
      subst has
      exact hfresh hal
    · intro c a ha
      simp only [hby] at ha
      rw [hall, List.mem_append]
      by_cases hc : c = creator
      · rw [if_pos hc, List.mem_append] at ha
        rcases ha with ha | ha
        · exact Or.inl (ih.2 c a ha)
        · exact Or.inr ha
      · rw [if_neg hc] at ha
        exact Or.inl (ih.2 c a ha)

/-- Claim C7: a successful `createToken` appends the fresh address exactly
once to the global list and exactly once to the caller's per-creator list,
appending at the tail (so insertion order is preserved and both lists only
grow: the old lists are prefixes of the new ones), and leaves every other
creator's list untouched; and in every reachable factory state, every
address in any per-creator list occurs exactly once in the global list. -/
theorem createToken_registry_invariants :
    (∀ f creator name symbol supply price addr out,
      createToken f creator name symbol supply price addr = .ok out →
      out.2.1 = addr ∧
      out.1.allTokens = f.allTokens ++ [addr] ∧
      out.1.tokensByCreator creator = f.tokensByCreator creator ++ [addr] ∧
      (∀ c, c ≠ creator → out.1.tokensByCreator c = f.tokensByCreator c) ∧
      f.allTokens <+: out.1.allTokens ∧
      f.tokensByCreator creator <+: out.1.tokensByCreator creator) ∧
    (∀ f, FactoryReachable f → ∀ c a, a ∈ f.tokensByCreator c →
      f.allTokens.count a = 1) := by
  constructor
  · intro f creator name symbol supply price addr out hok
    obtain ⟨hall, hby, htok⟩ := createToken_ok_inv hok
    refine ⟨htok, hall, ?_, ?_, ?_, ?_⟩
    · simp only [hby]
      rw [if_true]
    · intro c hc
      simp only [hby]
      rw [if_neg hc]
    · rw [hall]
      exact List.prefix_append f.allTokens [addr]
    · simp only [hby]
      rw [if_true]
      exact List.prefix_append (f.tokensByCreator creator) [addr]
  · intro f h c a ha
    obtain ⟨hnd, hsub⟩ := factory_inv f h
    exact List.count_eq_one_of_mem hnd (hsub c a ha)

/-- The factory state just after deployment, and after one creation, for the
witness below. -/
def sampleFactory : FactoryState :=
  { allTokens := [], tokensByCreator := fun _ => [] }

/-- `sampleFactory` after creator `3` deploys a token at address `9`. -/
def sampleFactory1 : FactoryState :=
  { allTokens := [9], tokensByCreator := fun c => if c = 3 then [9] else [] }

/-- Claim C7, witness: creating a token at fresh address `9` from the empty
factory appends it to the global list. -/
theorem createToken_registry_invariants_witness :
    sampleFactory1.allTokens = sampleFactory.allTokens ++ [9] :=
  (createToken_registry_invariants.1 sampleFactory 3 "tok" "TOK" 5 2 9
    (sampleFactory1, 9, ⟨3, 9, "tok", "TOK", 5, 2⟩) (by rfl)).2.1
